import Mathlib

/-!
Shallow embedding of the offline transaction mesh network core
(offlineTransactionService, blockchainService, meshService, the crypto
utilities and the Dexie-backed local store), together with theorems that
settle the specification claims against it.

Modelling conventions:
- Asynchronous store and network operations are modelled as pure state
  transformers; code that can throw returns Except String.
- The byte-level cryptography of tweetnacl (ed25519 core) and SHA-256 are
  external library calls; they enter the model as explicit function
  parameters (verifyCore, sign, shaHex).  The base58 codec, the size checks
  tweetnacl performs before the ed25519 core runs, and the exact strings
  that are hashed and signed are modelled concretely, because the claims
  are about them.
- Dexie (IndexedDB) queries iterate an index in key order; rows with equal
  index keys are ordered by primary key.  The primary key of the
  offlineTransactions table is the id field.
-/

set_option maxRecDepth 100000

/-- Byte-wise comparison of character lists, used to model the primary-key
ordering of IndexedDB rows. -/
def charsLe : List Char → List Char → Bool
  | [], _ => true
  | _ :: _, [] => false
  | a :: as, b :: bs =>
    if a.toNat < b.toNat then true
    else if b.toNat < a.toNat then false
    else charsLe as bs

/-- String comparison induced by charsLe. -/
def strLe (a b : String) : Bool := charsLe a.data b.data

/-- UTF-8 encoding of one character (the encoding TextEncoder performs). -/
def utf8Char (c : Char) : List Nat :=
  let n := c.toNat
  if n < 128 then [n]
  else if n < 2048 then [192 + n / 64, 128 + n % 64]
  else if n < 65536 then [224 + n / 4096, 128 + (n / 64) % 64, 128 + n % 64]
  else [240 + n / 262144, 128 + (n / 4096) % 64, 128 + (n / 64) % 64, 128 + n % 64]

/-- Model of new TextEncoder().encode: the UTF-8 bytes of a string. -/
def strBytes (s : String) : List Nat := s.data.flatMap utf8Char

/-- Decidable equality of error-carrying results, used to evaluate the
model on concrete inputs. -/
instance exceptDecEq {ε α : Type} [DecidableEq ε] [DecidableEq α] :
    DecidableEq (Except ε α) := fun x y =>
  match x, y with
  | Except.error a, Except.error b =>
    if h : a = b then isTrue (by rw [h])
    else isFalse (fun hc => by cases hc; exact h rfl)
  | Except.error _, Except.ok _ => isFalse (fun hc => by cases hc)
  | Except.ok _, Except.error _ => isFalse (fun hc => by cases hc)
  | Except.ok a, Except.ok b =>
    if h : a = b then isTrue (by rw [h])
    else isFalse (fun hc => by cases hc; exact h rfl)

/-- Big-endian base-256 digits, written with structural recursion on a
fuel argument so that it evaluates inside the kernel; the fuel never runs
out because a number needs at most as many digits as its own value. -/
def natToBytesBEAux : Nat → Nat → List Nat
  | _, 0 => []
  | 0, _ + 1 => []
  | fuel + 1, n + 1 => natToBytesBEAux fuel ((n + 1) / 256) ++ [(n + 1) % 256]

/-- Big-endian base-256 digits of a natural number (empty for zero). -/
def natToBytesBE (n : Nat) : List Nat := natToBytesBEAux n n

/-- The base58 alphabet used by the bs58 package. -/
def base58Alphabet : List Char :=
  "123456789ABCDEFGHJKLMNPQRSTUVWXYZabcdefghijkmnopqrstuvwxyz".data

/-- Index of a character in a character list, compared by code point. -/
def idxIn (n : Nat) : List Char → Option Nat
  | [] => none
  | c :: cs => if c.toNat = n then some 0 else (idxIn n cs).map (· + 1)

/-- Digits of a base58 string; an error on any character outside the
alphabet, as the bs58 decoder throws on such input. -/
def base58Digits : List Char → Except String (List Nat)
  | [] => Except.ok []
  | c :: cs =>
    match idxIn c.toNat base58Alphabet with
    | none => Except.error "Non-base58 character"
    | some d =>
      match base58Digits cs with
      | Except.error e => Except.error e
      | Except.ok ds => Except.ok (d :: ds)

/-- Number of leading zero digits, which bs58 turns into leading zero
bytes. -/
def countLeadZeros : List Nat → Nat
  | 0 :: rest => countLeadZeros rest + 1
  | _ => 0

/-- Model of bs58.decode: leading one-characters become zero bytes and the
remaining value is written in big-endian base 256; any character outside
the alphabet is an error (a thrown exception in the original). -/
def decodeBase58 (s : String) : Except String (List Nat) :=
  match base58Digits s.data with
  | Except.error e => Except.error e
  | Except.ok ds =>
    Except.ok (List.replicate (countLeadZeros ds) 0 ++
      natToBytesBE (ds.foldl (fun acc d => acc * 58 + d) 0))

/-- Model of nacl.sign.detached.verify: tweetnacl throws on a signature
that is not 64 bytes or a public key that is not 32 bytes, and otherwise
runs the ed25519 core, which enters the model as the parameter
verifyCore. -/
def naclDetachedVerify (verifyCore : List Nat → List Nat → List Nat → Bool)
    (msg sig pk : List Nat) : Except String Bool :=
  if sig.length ≠ 64 then Except.error "bad signature size"
  else if pk.length ≠ 32 then Except.error "bad public key size"
  else Except.ok (verifyCore msg sig pk)

/-- Body of verifySignature in utils crypto: decode the public key, decode
the signature, encode the message and verify; any step may error. -/
def cryptoVerifyBody (verifyCore : List Nat → List Nat → List Nat → Bool)
    (message signature publicKey : String) : Except String Bool :=
  match decodeBase58 publicKey with
  | Except.error e => Except.error e
  | Except.ok publicKeyBytes =>
    match decodeBase58 signature with
    | Except.error e => Except.error e
    | Except.ok signatureBytes =>
      naclDetachedVerify verifyCore (strBytes message) signatureBytes publicKeyBytes

/-- verifySignature from utils crypto: the body runs inside a try-catch
and every error is turned into the result false. -/
def cryptoVerifySignature (verifyCore : List Nat → List Nat → List Nat → Bool)
    (message signature publicKey : String) : Bool :=
  match cryptoVerifyBody verifyCore message signature publicKey with
  | Except.ok b => b
  | Except.error _ => false

/-- createTransactionMessage from utils crypto: the colon-delimited
template over amount, sender, recipient, nonce and timestamp. -/
def createTransactionMessage (amount : Nat) (fromAddr toAddr : String)
    (nonce timestamp : Nat) : String :=
  toString amount ++ ":" ++ fromAddr ++ ":" ++ toAddr ++ ":" ++
    toString nonce ++ ":" ++ toString timestamp

/-- Transaction status enum of the offline transaction service. -/
inductive TransactionStatus
  | PENDING
  | PROCESSING
  | COMPLETED
  | FAILED
  | REJECTED
  deriving DecidableEq, Repr

/-- Keypair stored by the offline transaction service. -/
structure Keypair where
  address : String
  publicKey : String
  privateKey : String
  deriving DecidableEq, Repr

/-- OfflineTransaction record.  The optional metadata object is modelled
as an association list, the absent object as the empty list. -/
structure OfflineTransaction where
  id : String
  «from» : String
  «to» : String
  amount : String
  nonce : Nat
  timestamp : Nat
  signature : String
  hash : String
  status : TransactionStatus
  metadata : List (String × String)
  syncedOnChain : Bool
  meshPropagated : Bool
  deriving DecidableEq, Repr

/-- The offlineTransactions table of the Dexie database, rows in insertion
order; the primary key is the id field. -/
structure Db where
  transactions : List OfflineTransaction
  deriving DecidableEq, Repr

/-- Insertion into a list kept in ascending primary-key order. -/
def insertById (x : OfflineTransaction) :
    List OfflineTransaction → List OfflineTransaction
  | [] => [x]
  | y :: ys => if strLe x.id y.id then x :: y :: ys else y :: insertById x ys

/-- Rows in ascending primary-key order, the order in which an IndexedDB
index yields rows whose index keys are equal. -/
def sortById : List OfflineTransaction → List OfflineTransaction
  | [] => []
  | x :: xs => insertById x (sortById xs)

/-- Dexie query where from equals the given address: matching rows in
index order, which for a fixed key is ascending primary-key order. -/
def whereFromEquals (db : Db) (address : String) : List OfflineTransaction :=
  sortById (db.transactions.filter (fun tx => tx.«from» == address))

/-- Nonce selection used by createTransaction and by generateNonce in the
transaction service: take the last row of the reversed from-index query
and add one to its nonce, or start at 1 when the sender has no rows. -/
def generateNonce (db : Db) (address : String) : Nat :=
  match (whereFromEquals db address).getLast? with
  | some latestTx => latestTx.nonce + 1
  | none => 1

/-- getPendingTransactions: rows whose status equals PENDING and that are
not yet synced on chain, in the order the status index yields them. -/
def getPendingTransactions (db : Db) : List OfflineTransaction :=
  sortById (db.transactions.filter
    (fun tx => tx.status == TransactionStatus.PENDING && !tx.syncedOnChain))

/-- updateTransactionStatus: overwrite the status of the row with the
given primary key. -/
def updateTransactionStatus (db : Db) (id : String)
    (status : TransactionStatus) : Db :=
  ⟨db.transactions.map
    (fun tx => if tx.id == id then { tx with status := status } else tx)⟩

/-- markTransactionSynced: set syncedOnChain and force status COMPLETED on
the row with the given primary key. -/
def markTransactionSynced (db : Db) (id : String) : Db :=
  ⟨db.transactions.map (fun tx =>
    if tx.id == id then
      { tx with syncedOnChain := true, status := TransactionStatus.COMPLETED }
    else tx)⟩

/-- Dexie table add: rejects with a constraint error when a row with the
same primary key already exists, otherwise appends the row. -/
def dbAdd (db : Db) (tx : OfflineTransaction) : Except String Db :=
  if db.transactions.any (fun r => r.id == tx.id) then
    Except.error "ConstraintError"
  else Except.ok ⟨db.transactions ++ [tx]⟩

/-- JavaScript truthiness of an optional string property: undefined and
the empty string are falsy. -/
def jsTruthy : Option String → Option String
  | some "" => none
  | o => o

/-- One hexadecimal digit in lower case. -/
def hexDigit (n : Nat) : Char :=
  if n < 10 then Char.ofNat (48 + n) else Char.ofNat (87 + n)

/-- JSON string escaping as JSON.stringify performs it on one character. -/
def jsonEscapeChar (c : Char) : List Char :=
  if c = Char.ofNat 34 then [Char.ofNat 92, Char.ofNat 34]
  else if c = Char.ofNat 92 then [Char.ofNat 92, Char.ofNat 92]
  else if c = Char.ofNat 8 then [Char.ofNat 92, Char.ofNat 98]
  else if c = Char.ofNat 9 then [Char.ofNat 92, Char.ofNat 116]
  else if c = Char.ofNat 10 then [Char.ofNat 92, Char.ofNat 110]
  else if c = Char.ofNat 12 then [Char.ofNat 92, Char.ofNat 102]
  else if c = Char.ofNat 13 then [Char.ofNat 92, Char.ofNat 114]
  else if c.toNat < 32 then
    [Char.ofNat 92, Char.ofNat 117, Char.ofNat 48, Char.ofNat 48,
      hexDigit (c.toNat / 16), hexDigit (c.toNat % 16)]
  else [c]

/-- A JSON string literal for the given string. -/
def jsonQuote (s : String) : String :=
  "\"" ++ String.mk (s.data.flatMap jsonEscapeChar) ++ "\""

/-- The string the offline transaction service hashes and signs:
JSON.stringify of the object literal with fields from, to, amount, nonce
and timestamp, in that insertion order. -/
def offlineSigningPayload (fromAddr toAddr amount : String)
    (nonce timestamp : Nat) : String :=
  "\x7b\"from\":" ++ jsonQuote fromAddr ++
    ",\"to\":" ++ jsonQuote toAddr ++
    ",\"amount\":" ++ jsonQuote amount ++
    ",\"nonce\":" ++ toString nonce ++
    ",\"timestamp\":" ++ toString timestamp ++ "\x7d"

/-- verifySignature local to the offline transaction service: decode the
signature and the public key with bs58 and call nacl detached verify.
There is no try-catch here, so decoding and size errors propagate to the
caller as exceptions. -/
def offlineVerifySignature (verifyCore : List Nat → List Nat → List Nat → Bool)
    (txData signature publicKey : String) : Except String Bool :=
  match decodeBase58 signature with
  | Except.error e => Except.error e
  | Except.ok signatureBytes =>
    match decodeBase58 publicKey with
    | Except.error e => Except.error e
    | Except.ok publicKeyBytes =>
      naclDetachedVerify verifyCore (strBytes txData) signatureBytes publicKeyBytes

/-- The transaction object built by createTransaction of the offline
transaction service: nonce from the from-index query, signature and hash
computed over the JSON payload.  The parameters sign and shaHex stand for
signTransaction with the fixed local private key and for the SHA-256 hex
digest. -/
def offlineBuildTransaction (sign shaHex : String → String) (db : Db)
    (keypair : Keypair) (id toAddr amount : String)
    (metadata : List (String × String)) (timestamp : Nat) : OfflineTransaction :=
  let fromAddr := keypair.address
  let nonce := generateNonce db fromAddr
  let payload := offlineSigningPayload fromAddr toAddr amount nonce timestamp
  { id := id
    «from» := fromAddr
    «to» := toAddr
    amount := amount
    nonce := nonce
    timestamp := timestamp
    signature := sign payload
    hash := shaHex payload
    status := TransactionStatus.PENDING
    metadata := metadata
    syncedOnChain := false
    meshPropagated := false }

/-- createTransaction of the offline transaction service up to the store
write.  The later best-effort mesh propagation touches only mesh state and
the meshPropagated flag and is outside the store model. -/
def createTransaction (sign shaHex : String → String) (db : Db)
    (keypair : Keypair) (id toAddr amount : String)
    (metadata : List (String × String)) (timestamp : Nat) :
    Except String (OfflineTransaction × Db) :=
  let tx := offlineBuildTransaction sign shaHex db keypair id toAddr amount metadata timestamp
  match dbAdd db tx with
  | Except.error e => Except.error e
  | Except.ok db2 => Except.ok (tx, db2)

/-- receiveTransaction of the offline transaction service: return false on
a duplicate hash, throw when the sender public key is missing from the
metadata, verify only the signature over the JSON payload, throw on an
invalid signature, and otherwise store the transaction.  The declared hash
field is never recomputed or checked.  The subsequent mesh propagation
touches only mesh state. -/
def receiveTransaction (verifyCore : List Nat → List Nat → List Nat → Bool)
    (db : Db) (transaction : OfflineTransaction) : Except String (Bool × Db) :=
  if db.transactions.any (fun r => r.hash == transaction.hash) then
    Except.ok (false, db)
  else
    match jsTruthy (transaction.metadata.lookup "senderPublicKey") with
    | none => Except.error "Sender public key not provided"
    | some senderPublicKey =>
      match offlineVerifySignature verifyCore
          (offlineSigningPayload transaction.«from» transaction.«to»
            transaction.amount transaction.nonce transaction.timestamp)
          transaction.signature senderPublicKey with
      | Except.error e => Except.error e
      | Except.ok false => Except.error "Invalid transaction signature"
      | Except.ok true =>
        match dbAdd db transaction with
        | Except.error e => Except.error e
        | Except.ok db2 => Except.ok (true, db2)

/-- A parsed QR payload as processQRTransaction reads it. -/
structure QRPayload where
  type : String
  version : String
  id : String
  «from» : String
  «to» : String
  amount : String
  nonce : Nat
  timestamp : Nat
  signature : String
  hash : String
  metadata : Option (List (String × String))
  deriving DecidableEq, Repr

/-- processQRTransaction: check the payload type marker, rebuild a PENDING
transaction with the metadata defaulted to the empty object, and hand it
to receiveTransaction. -/
def processQRTransaction (verifyCore : List Nat → List Nat → List Nat → Bool)
    (db : Db) (p : QRPayload) : Except String (OfflineTransaction × Db) :=
  if p.type != "GLOBE_PAY_TX" then Except.error "Invalid QR code format"
  else
    let transaction : OfflineTransaction :=
      { id := p.id
        «from» := p.«from»
        «to» := p.«to»
        amount := p.amount
        nonce := p.nonce
        timestamp := p.timestamp
        signature := p.signature
        hash := p.hash
        status := TransactionStatus.PENDING
        metadata := p.metadata.getD []
        syncedOnChain := false
        meshPropagated := false }
    match receiveTransaction verifyCore db transaction with
    | Except.error e => Except.error e
    | Except.ok (_, db2) => Except.ok (transaction, db2)

/-- Events the ledger contract emits for one submitted batch. -/
inductive LedgerEvent
  | transactionProcessed (txHash : String)
  | transactionRejected (txHash : String) (reason : String)
  deriving DecidableEq, Repr

/-- processBatch of the blockchain service: mark every transaction of the
batch PROCESSING, submit the batch, and on success apply the emitted
events, marking processed transactions synced and rejected ones REJECTED.
When the submission fails as a whole the catch block marks every
transaction of the batch FAILED.  The ledger call is the parameter
submitBatch. -/
def processBatch
    (submitBatch : List OfflineTransaction → Except String (List LedgerEvent))
    (db : Db) (transactions : List OfflineTransaction) : Db :=
  let db1 := transactions.foldl
    (fun d tx => updateTransactionStatus d tx.id TransactionStatus.PROCESSING) db
  match submitBatch transactions with
  | Except.error _ =>
    transactions.foldl
      (fun d tx => updateTransactionStatus d tx.id TransactionStatus.FAILED) db1
  | Except.ok events =>
    events.foldl (fun d ev =>
      match ev with
      | LedgerEvent.transactionProcessed h =>
        match transactions.find? (fun t => ("0x" ++ t.hash) == h) with
        | some t => markTransactionSynced d t.id
        | none => d
      | LedgerEvent.transactionRejected h _ =>
        match transactions.find? (fun t => ("0x" ++ t.hash) == h) with
        | some t => updateTransactionStatus d t.id TransactionStatus.REJECTED
        | none => d) db1

/-- Payload of a mesh message: a transaction for TRANSACTION messages or a
peer id list for PEER_LIST messages. -/
inductive MeshData
  | tx (transaction : OfflineTransaction)
  | peers (peerIds : List String)
  deriving DecidableEq, Repr

/-- A mesh wire message.  The ttl field is optional and is an integer that
the propagation step compares against zero and decrements. -/
structure MeshMessage where
  type : String
  data : Option MeshData
  ttl : Option Int
  sender : String
  timestamp : Nat
  messageId : String
  deriving DecidableEq, Repr

/-- State of the mesh service.  The maps and sets of the original keep
insertion order, so they are lists here; outbox records every send a
broadcast performs, connectAttempts every outgoing connection the service
initiates, and received every invocation of the registered transaction
callback. -/
structure MeshState where
  peerId : String
  isInitialized : Bool
  isOnline : Bool
  connections : List String
  knownPeers : List (String × Nat)
  processedMessages : List String
  processedTransactions : List (String × Nat)
  outbox : List (String × MeshMessage)
  connectAttempts : List String
  received : List OfflineTransaction
  deriving DecidableEq, Repr

/-- Environment of one message delivery: the clock and the stream of
random draws the peer-list handler consumes. -/
structure MeshEnv where
  now : Nat
  rand : Nat → Bool

/-- isReady of the mesh service. -/
def meshIsReady (st : MeshState) : Bool := st.isInitialized && st.isOnline

/-- connectToPeer: a no-op when the service is not ready, when the target
is the local peer or when a connection already exists; otherwise an
outgoing connection attempt is initiated (its completion is asynchronous
and does not change the tracked state here). -/
def connectToPeer (st : MeshState) (peerId : String) : MeshState :=
  if !meshIsReady st || peerId == st.peerId then st
  else if st.connections.contains peerId then st
  else { st with connectAttempts := st.connectAttempts ++ [peerId] }

/-- Map set on the known-peer table: replace in place or append. -/
def upsertKnownPeer (peers : List (String × Nat)) (peerId : String)
    (lastSeen : Nat) : List (String × Nat) :=
  if peers.any (fun p => p.1 == peerId) then
    peers.map (fun p => if p.1 == peerId then (peerId, lastSeen) else p)
  else peers ++ [(peerId, lastSeen)]

/-- hasProcessedTransaction: membership of a hash in the processed list. -/
def hasProcessedTransaction (st : MeshState) (hash : String) : Bool :=
  st.processedTransactions.any (fun tx => tx.1 == hash)

/-- addProcessedTransaction: append the hash with the current time and
prune entries older than one hour. -/
def addProcessedTransaction (now : Nat) (st : MeshState) (hash : String) :
    MeshState :=
  let oneHourAgo := now - 3600000
  let pruned := (st.processedTransactions ++ [(hash, now)]).filter
    (fun tx => oneHourAgo < tx.2)
  { st with processedTransactions := pruned }

/-- handleTransactionMessage: ignore messages without data, drop an
already-processed transaction hash, otherwise record the hash and invoke
the registered callback.  A TRANSACTION message whose payload is not a
transaction object is outside the model (the original would read
undefined fields from the cast). -/
def handleTransactionMessage (now : Nat) (message : MeshMessage)
    (st : MeshState) : MeshState :=
  match message.data with
  | some (MeshData.tx transaction) =>
    if hasProcessedTransaction st transaction.hash then st
    else
      let st1 := addProcessedTransaction now st transaction.hash
      { st1 with received := st1.received ++ [transaction] }
  | _ => st

/-- handlePeerAnnouncementMessage: for an unknown, unconnected, non-local
sender record it as a known peer and try to connect. -/
def handlePeerAnnouncementMessage (now : Nat) (message : MeshMessage)
    (st : MeshState) : MeshState :=
  let peerId := message.sender
  if peerId != st.peerId && !st.connections.contains peerId then
    connectToPeer { st with knownPeers := upsertKnownPeer st.knownPeers peerId now }
      peerId
  else st

/-- One iteration of the peer-list loop; the second component counts the
random draws consumed so far. -/
def peerListStep (env : MeshEnv) (acc : MeshState × Nat) (peerId : String) :
    MeshState × Nat :=
  let (st, draws) := acc
  if peerId != st.peerId && !st.connections.contains peerId then
    let st1 :=
      if st.knownPeers.any (fun p => p.1 == peerId) then st
      else { st with knownPeers := st.knownPeers ++ [(peerId, env.now)] }
    if env.rand draws then (connectToPeer st1 peerId, draws + 1)
    else (st1, draws + 1)
  else (st, draws)

/-- handlePeerListMessage: record each listed peer and connect to an
eligible one with probability 0.3, modelled by the random draw stream. -/
def handlePeerListMessage (env : MeshEnv) (message : MeshMessage)
    (st : MeshState) : MeshState :=
  match message.data with
  | some (MeshData.peers peerList) => (peerList.foldl (peerListStep env) (st, 0)).1
  | _ => st

/-- broadcastMessage: send the message over every active connection whose
peer is not excluded. -/
def broadcastMessage (st : MeshState) (message : MeshMessage)
    (excludePeers : List String) : MeshState :=
  let sends := (st.connections.filter (fun p => !excludePeers.contains p)).map
    (fun p => (p, message))
  { st with outbox := st.outbox ++ sends }

/-- propagateMessage: when a ttl is present and is at most zero the
message is not propagated; otherwise the ttl is decremented and the
message is broadcast to every active connection except the original
sender.  The check precedes the decrement, so a message arriving with
ttl one is still rebroadcast, carrying ttl zero. -/
def propagateMessage (message : MeshMessage) (st : MeshState) : MeshState :=
  match message.ttl with
  | some t =>
    if t ≤ 0 then st
    else broadcastMessage st { message with ttl := some (t - 1) } [message.sender]
  | none => broadcastMessage st message [message.sender]

/-- Dispatch of processMessage on the message type. -/
def handleByType (env : MeshEnv) (message : MeshMessage) (st : MeshState) :
    MeshState :=
  match message.type with
  | "TRANSACTION" => handleTransactionMessage env.now message st
  | "PEER_ANNOUNCEMENT" => handlePeerAnnouncementMessage env.now message st
  | "PEER_LIST" => handlePeerListMessage env message st
  | "PING" => st
  | _ => st

/-- processMessage: drop a message whose messageId was already processed;
otherwise record the messageId, dispatch on the type and propagate. -/
def processMessage (env : MeshEnv) (message : MeshMessage) (st : MeshState) :
    MeshState :=
  if st.processedMessages.contains message.messageId then st
  else
    let st1 := { st with
      processedMessages := st.processedMessages ++ [message.messageId] }
    propagateMessage message (handleByType env message st1)

/-- Convenience constructor for concrete transaction rows used in the
concrete instances below; syncedOnChain and meshPropagated start false. -/
def mkTx (id fromAddr toAddr amount : String) (nonce timestamp : Nat)
    (signature hash : String) (status : TransactionStatus)
    (metadata : List (String × String)) : OfflineTransaction :=
  { id := id
    «from» := fromAddr
    «to» := toAddr
    amount := amount
    nonce := nonce
    timestamp := timestamp
    signature := signature
    hash := hash
    status := status
    metadata := metadata
    syncedOnChain := false
    meshPropagated := false }

/-- A string of the given number of one-characters; in base58 it decodes
to that many zero bytes, giving well-formed key and signature material. -/
def onesStr (n : Nat) : String := String.mk (List.replicate n (Char.ofNat 49))

/-- An ed25519 core that accepts everything, used to instantiate the
abstract verifier at concrete inputs. -/
def verifyCoreTrue : List Nat → List Nat → List Nat → Bool := fun _ _ _ => true

/-- An ed25519 core that rejects everything. -/
def verifyCoreFalse : List Nat → List Nat → List Nat → Bool := fun _ _ _ => false

/-- The empty store. -/
def dbEmpty : Db := ⟨[]⟩

/-- The nonce rule as the specification and the code comment state it:
one plus the highest nonce currently stored for the sender, starting at 1
when the sender has no stored rows. -/
def nextNonceSpec (db : Db) (address : String) : Nat :=
  (db.transactions.filter (fun tx => tx.«from» == address)).foldl
    (fun m tx => max m tx.nonce) 0 + 1

/-- Five PENDING rows forming one sync batch. -/
def dbBatch5 : Db := ⟨[
  mkTx "b1" "A" "B" "1" 1 100 "s1" "h1" TransactionStatus.PENDING [],
  mkTx "b2" "A" "B" "1" 2 101 "s2" "h2" TransactionStatus.PENDING [],
  mkTx "b3" "A" "B" "1" 3 102 "s3" "h3" TransactionStatus.PENDING [],
  mkTx "b4" "A" "B" "1" 4 103 "s4" "h4" TransactionStatus.PENDING [],
  mkTx "b5" "A" "B" "1" 5 104 "s5" "h5" TransactionStatus.PENDING []]⟩

/-- A PENDING row of sender A with nonce 4. -/
def txNonce4 : OfflineTransaction :=
  mkTx "a4" "A" "B" "1" 4 3 "s" "h4" TransactionStatus.PENDING []

/-- A store holding nonces 1, 2 and 4 of sender A, nonce 3 missing. -/
def dbGap : Db := ⟨[
  mkTx "a1" "A" "B" "1" 1 1 "s" "h1" TransactionStatus.PENDING [],
  mkTx "a2" "A" "B" "1" 2 2 "s" "h2" TransactionStatus.PENDING [],
  txNonce4]⟩

/-- Well-formed base58 public-key material: 32 zero bytes. -/
def spk32 : String := onesStr 32

/-- Well-formed base58 signature material: 64 zero bytes. -/
def sig64 : String := onesStr 64

/-- A transaction declaring hash aa, with a sender public key attached. -/
def txHashAA : OfflineTransaction :=
  mkTx "qa" "A" "B" "10" 1 1000 sig64 "aa" TransactionStatus.PENDING
    [("senderPublicKey", spk32)]

/-- The same transaction data declaring hash bb instead. -/
def txHashBB : OfflineTransaction :=
  mkTx "qb" "A" "B" "10" 1 1000 sig64 "bb" TransactionStatus.PENDING
    [("senderPublicKey", spk32)]

/-- A transaction whose metadata has no senderPublicKey entry. -/
def txNoSpk : OfflineTransaction :=
  mkTx "qn" "A" "B" "10" 1 1000 sig64 "cc" TransactionStatus.PENDING []

/-- A QR payload of the correct type marker but without metadata. -/
def qrNoMeta : QRPayload :=
  ⟨"GLOBE_PAY_TX", "1.0", "qq", "A", "B", "10", 1, 1000, sig64, "dd", none⟩

/-- A store whose only row is COMPLETED. -/
def dbCompleted : Db :=
  ⟨[mkTx "t1" "A" "B" "1" 1 10 "s" "h1" TransactionStatus.COMPLETED []]⟩

/-- Two rows of sender A where the row with the larger primary key b
carries the smaller nonce 5, while the maximal nonce is 7. -/
def dbNonceSkew : Db := ⟨[
  mkTx "a" "A" "B" "1" 7 10 "s" "h1" TransactionStatus.PENDING [],
  mkTx "b" "A" "B" "1" 5 11 "s" "h2" TransactionStatus.PENDING []]⟩

/-- A keypair whose address is A. -/
def kpA : Keypair := ⟨"A", "pk", "sk"⟩

/-- A ready mesh node p3 with one active connection to p2. -/
def meshStBase : MeshState := ⟨"p3", true, true, ["p2"], [], [], [], [], [], []⟩

/-- A delivery environment with clock zero and a constant-false random
stream. -/
def envZero : MeshEnv := ⟨0, fun _ => false⟩

/-- A ping from p1 arriving with ttl one. -/
def pingTtl1 : MeshMessage := ⟨"PING", none, some 1, "p1", 5, "m1"⟩

/-- A ping from p1 arriving with ttl zero. -/
def pingTtl0 : MeshMessage := ⟨"PING", none, some 0, "p1", 5, "m0"⟩

/-- Reflexivity of the character-list comparison. -/
theorem charsLe_refl : ∀ as : List Char, charsLe as as = true
  | [] => rfl
  | a :: as => by
    simp only [charsLe, Nat.lt_irrefl, if_false]
    exact charsLe_refl as

/-- Totality of the character-list comparison. -/
theorem charsLe_total : ∀ as bs : List Char,
    charsLe as bs = true ∨ charsLe bs as = true
  | [], _ => Or.inl rfl
  | _ :: _, [] => Or.inr rfl
  | a :: as, b :: bs => by
    simp only [charsLe]
    rcases Nat.lt_trichotomy a.toNat b.toNat with h | h | h
    · left
      rw [if_pos h]
    · have h1 : ¬ a.toNat < b.toNat := by omega
      have h2 : ¬ b.toNat < a.toNat := by omega
      rw [if_neg h1, if_neg h2, if_neg h2, if_neg h1]
      exact charsLe_total as bs
    · right
      rw [if_pos h]

/-- Transitivity of the character-list comparison. -/
theorem charsLe_trans : ∀ as bs cs : List Char,
    charsLe as bs = true → charsLe bs cs = true → charsLe as cs = true
  | [], _, _, _, _ => rfl
  | _ :: _, [], _, h1, _ => by simp [charsLe] at h1
  | _ :: _, _ :: _, [], _, h2 => by simp [charsLe] at h2
  | a :: as, b :: bs, c :: cs, h1, h2 => by
    simp only [charsLe] at h1 h2 ⊢
    by_cases hab : a.toNat < b.toNat
    · by_cases hbc : b.toNat < c.toNat
      · rw [if_pos (Nat.lt_trans hab hbc)]
      · rw [if_pos hab] at h1
        by_cases hcb : c.toNat < b.toNat
        · rw [if_neg hbc, if_pos hcb] at h2
          exact absurd h2 (by simp)
        · have hac : a.toNat < c.toNat := by omega
          rw [if_pos hac]
    · by_cases hba : b.toNat < a.toNat
      · rw [if_neg hab, if_pos hba] at h1
        exact absurd h1 (by simp)
      · have hab' : a.toNat = b.toNat := by omega
        rw [if_neg hab, if_neg hba] at h1
        by_cases hbc : b.toNat < c.toNat
        · rw [if_pos (by omega : a.toNat < c.toNat)]
        · by_cases hcb : c.toNat < b.toNat
          · rw [if_neg hbc, if_pos hcb] at h2
            exact absurd h2 (by simp)
          · rw [if_neg hbc, if_neg hcb] at h2
            rw [if_neg (by omega : ¬ a.toNat < c.toNat),
              if_neg (by omega : ¬ c.toNat < a.toNat)]
            exact charsLe_trans as bs cs h1 h2

/-- Totality of the string comparison. -/
theorem strLe_total (a b : String) : strLe a b = true ∨ strLe b a = true :=
  charsLe_total a.data b.data

/-- Transitivity of the string comparison. -/
theorem strLe_trans {a b c : String} (h1 : strLe a b = true)
    (h2 : strLe b c = true) : strLe a c = true :=
  charsLe_trans a.data b.data c.data h1 h2

/-- Membership in the sorted insertion. -/
theorem mem_insertById (a x : OfflineTransaction)
    (l : List OfflineTransaction) : a ∈ insertById x l ↔ a = x ∨ a ∈ l := by
  induction l with
  | nil => simp [insertById]
  | cons y ys ih =>
    simp only [insertById]
    split
    · simp
    · simp only [List.mem_cons, ih]
      tauto

/-- Membership is preserved by the primary-key sort. -/
theorem mem_sortById (a : OfflineTransaction) (l : List OfflineTransaction) :
    a ∈ sortById l ↔ a ∈ l := by
  induction l with
  | nil => simp [sortById]
  | cons y ys ih => simp [sortById, mem_insertById, ih]

/-- Sorted insertion preserves being sorted by primary key. -/
theorem pairwise_insertById (x : OfflineTransaction)
    (l : List OfflineTransaction)
    (h : l.Pairwise (fun a b => strLe a.id b.id = true)) :
    (insertById x l).Pairwise (fun a b => strLe a.id b.id = true) := by
  induction l with
  | nil => simp [insertById]
  | cons y ys ih =>
    rcases List.pairwise_cons.mp h with ⟨hy, hys⟩
    simp only [insertById]
    split
    case isTrue hxy =>
      refine List.pairwise_cons.mpr ⟨?_, h⟩
      intro z hz
      rcases List.mem_cons.mp hz with rfl | hz
      · exact hxy
      · exact strLe_trans hxy (hy z hz)
    case isFalse hxy =>
      refine List.pairwise_cons.mpr ⟨?_, ih hys⟩
      intro z hz
      rcases (mem_insertById z x ys).mp hz with rfl | hz
      · exact (strLe_total z.id y.id).resolve_left hxy
      · exact hy z hz

/-- The primary-key sort yields a list sorted by primary key. -/
theorem pairwise_sortById (l : List OfflineTransaction) :
    (sortById l).Pairwise (fun a b => strLe a.id b.id = true) := by
  induction l with
  | nil => simp [sortById]
  | cons y ys ih => exact pairwise_insertById y (sortById ys) ih

/-- Characterisation of the pending-for-sync query: exactly the stored
rows that are PENDING and not yet synced on chain. -/
theorem mem_getPendingTransactions (db : Db) (tx : OfflineTransaction) :
    tx ∈ getPendingTransactions db ↔
      tx ∈ db.transactions ∧ tx.status = TransactionStatus.PENDING ∧
        tx.syncedOnChain = false := by
  unfold getPendingTransactions
  rw [mem_sortById, List.mem_filter]
  simp [Bool.and_eq_true, Bool.not_eq_true']

/-- A status overwrite keeps the primary key of every row. -/
theorem updateRow_id (tx : OfflineTransaction) (id : String)
    (s : TransactionStatus) :
    (if tx.id == id then { tx with status := s } else tx).id = tx.id := by
  split <;> rfl

/-- Folding the unconditional status overwrite over a batch rewrites every
row whose primary key occurs in the batch and leaves the rest unchanged. -/
theorem foldl_updateTransactionStatus (s : TransactionStatus) :
    ∀ (txs : List OfflineTransaction) (db : Db),
    (txs.foldl (fun d tx => updateTransactionStatus d tx.id s) db).transactions
      = db.transactions.map (fun r =>
          if txs.any (fun t => r.id == t.id) then { r with status := s } else r)
  | [], db => by
    simp
  | t :: ts, db => by
    rw [List.foldl_cons, foldl_updateTransactionStatus s ts]
    unfold updateTransactionStatus
    rw [List.map_map]
    refine List.map_congr_left ?_
    intro r _
    simp only [Function.comp, List.any_cons]
    by_cases hr : r.id == t.id
    · rw [if_pos hr]
      have h1 : ({ r with status := s } : OfflineTransaction).id = r.id := rfl
      by_cases hts : ts.any (fun t' => r.id == t'.id)
      · simp [h1, hts, hr]
      · simp [h1, hts, hr]
    · rw [if_neg hr]
      by_cases hts : ts.any (fun t' => r.id == t'.id)
      · simp [hts, hr]
      · simp [hts, hr]

/-- connectToPeer changes at most the connection-attempt log. -/
theorem connectToPeer_shape (st : MeshState) (p : String) :
    ∃ ca, connectToPeer st p = { st with connectAttempts := ca } := by
  unfold connectToPeer
  split
  · exact ⟨st.connectAttempts, rfl⟩
  · split
    · exact ⟨st.connectAttempts, rfl⟩
    · exact ⟨st.connectAttempts ++ [p], rfl⟩

/-- The transaction handler changes at most the processed-transaction
records and the callback log. -/
theorem handleTransactionMessage_shape (now : Nat) (message : MeshMessage)
    (st : MeshState) : ∃ pt rc, handleTransactionMessage now message st =
      { st with processedTransactions := pt, received := rc } := by
  unfold handleTransactionMessage
  split
  · split
    · exact ⟨st.processedTransactions, st.received, rfl⟩
    · exact ⟨_, _, rfl⟩
  · exact ⟨st.processedTransactions, st.received, rfl⟩

/-- The announcement handler changes at most the known-peer table and the
connection-attempt log. -/
theorem handlePeerAnnouncementMessage_shape (now : Nat)
    (message : MeshMessage) (st : MeshState) :
    ∃ kp ca, handlePeerAnnouncementMessage now message st =
      { st with knownPeers := kp, connectAttempts := ca } := by
  unfold handlePeerAnnouncementMessage
  dsimp only
  split
  · obtain ⟨ca, hca⟩ := connectToPeer_shape
      { st with knownPeers := upsertKnownPeer st.knownPeers message.sender now }
      message.sender
    rw [hca]
    exact ⟨_, _, rfl⟩
  · exact ⟨st.knownPeers, st.connectAttempts, rfl⟩

/-- One peer-list iteration changes at most the known-peer table and the
connection-attempt log. -/
theorem peerListStep_shape (env : MeshEnv) (st : MeshState) (k : Nat)
    (p : String) : ∃ kp ca k2, peerListStep env (st, k) p =
      ({ st with knownPeers := kp, connectAttempts := ca }, k2) := by
  unfold peerListStep
  dsimp only
  split
  · split
    · split
      · obtain ⟨ca, hca⟩ := connectToPeer_shape st p
        rw [hca]
        exact ⟨_, _, _, rfl⟩
      · obtain ⟨ca, hca⟩ := connectToPeer_shape
          { st with knownPeers := st.knownPeers ++ [(p, env.now)] } p
        rw [hca]
        exact ⟨_, _, _, rfl⟩
    · split
      · exact ⟨st.knownPeers, st.connectAttempts, _, rfl⟩
      · exact ⟨_, _, _, rfl⟩
  · exact ⟨st.knownPeers, st.connectAttempts, _, rfl⟩

/-- The peer-list loop changes at most the known-peer table and the
connection-attempt log. -/
theorem peerListFold_shape (env : MeshEnv) :
    ∀ (ps : List String) (st : MeshState) (k : Nat),
    ∃ kp ca, (ps.foldl (peerListStep env) (st, k)).1 =
      { st with knownPeers := kp, connectAttempts := ca }
  | [], st, _ => ⟨st.knownPeers, st.connectAttempts, rfl⟩
  | p :: ps, st, k => by
    rw [List.foldl_cons]
    obtain ⟨kp, ca, k2, hstep⟩ := peerListStep_shape env st k p
    rw [hstep]
    obtain ⟨kp2, ca2, hfold⟩ := peerListFold_shape env ps
      { st with knownPeers := kp, connectAttempts := ca } k2
    rw [hfold]
    exact ⟨_, _, rfl⟩

/-- The peer-list handler changes at most the known-peer table and the
connection-attempt log. -/
theorem handlePeerListMessage_shape (env : MeshEnv) (message : MeshMessage)
    (st : MeshState) : ∃ kp ca, handlePeerListMessage env message st =
      { st with knownPeers := kp, connectAttempts := ca } := by
  unfold handlePeerListMessage
  split
  · obtain ⟨kp, ca, h⟩ := peerListFold_shape env _ st 0
    rw [h]
    exact ⟨_, _, rfl⟩
  · exact ⟨st.knownPeers, st.connectAttempts, rfl⟩

/-- The type dispatch never touches the processed-message set, the
connection set or the outbox. -/
theorem handleByType_shape (env : MeshEnv) (message : MeshMessage)
    (st : MeshState) : ∃ kp pt ca rc, handleByType env message st =
      { st with knownPeers := kp, processedTransactions := pt, connectAttempts := ca, received := rc } := by
  unfold handleByType
  split
  · obtain ⟨pt, rc, h⟩ := handleTransactionMessage_shape env.now message st
    rw [h]
    exact ⟨_, _, _, _, rfl⟩
  · obtain ⟨kp, ca, h⟩ := handlePeerAnnouncementMessage_shape env.now message st
    rw [h]
    exact ⟨_, _, _, _, rfl⟩
  · obtain ⟨kp, ca, h⟩ := handlePeerListMessage_shape env message st
    rw [h]
    exact ⟨_, _, _, _, rfl⟩
  · exact ⟨st.knownPeers, st.processedTransactions, st.connectAttempts,
      st.received, rfl⟩
  · exact ⟨st.knownPeers, st.processedTransactions, st.connectAttempts,
      st.received, rfl⟩

/-- A broadcast changes only the outbox. -/
theorem broadcastMessage_shape (st : MeshState) (message : MeshMessage)
    (excludePeers : List String) : ∃ ob,
    broadcastMessage st message excludePeers = { st with outbox := ob } :=
  ⟨_, rfl⟩

/-- Propagation changes only the outbox. -/
theorem propagateMessage_shape (message : MeshMessage) (st : MeshState) :
    ∃ ob, propagateMessage message st = { st with outbox := ob } := by
  unfold propagateMessage
  split
  · split
    · exact ⟨st.outbox, rfl⟩
    · exact broadcastMessage_shape st _ _
  · exact broadcastMessage_shape st _ _

/-- Membership test against a single excluded peer. -/
theorem contains_singleton (s p : String) : [s].contains p = (p == s) := by
  cases h : p == s <;> simp [List.contains, List.elem, h]

/-- The processed-message set after a delivery: unchanged on a duplicate,
extended by the messageId otherwise. -/
theorem processMessage_processedMessages (env : MeshEnv)
    (message : MeshMessage) (st : MeshState) :
    (processMessage env message st).processedMessages =
      if st.processedMessages.contains message.messageId then
        st.processedMessages
      else st.processedMessages ++ [message.messageId] := by
  unfold processMessage
  split
  case isTrue h => rfl
  case isFalse h =>
    dsimp only
    obtain ⟨kp, pt, ca, rc, hh⟩ := handleByType_shape env message
      { st with processedMessages := st.processedMessages ++ [message.messageId] }
    rw [hh]
    obtain ⟨ob, hp⟩ := propagateMessage_shape message _
    rw [hp]

/-- Every delivery leaves the messageId in the processed set. -/
theorem processMessage_mem_processed (env : MeshEnv) (message : MeshMessage)
    (st : MeshState) :
    message.messageId ∈ (processMessage env message st).processedMessages := by
  rw [processMessage_processedMessages]
  split
  case isTrue h => exact List.elem_iff.mp h
  case isFalse h => exact List.mem_append_right _ (List.mem_singleton.mpr rfl)

/-- The outbox produced by one fresh delivery of a message carrying a ttl:
empty when the ttl is at most zero on arrival, otherwise one send of the
decremented message per active connection other than the sender. -/
theorem processMessage_outbox_fresh (env : MeshEnv) (message : MeshMessage)
    (st : MeshState) (t : Int) (ht : message.ttl = some t)
    (h : st.processedMessages.contains message.messageId = false) :
    (processMessage env message st).outbox =
      if t ≤ 0 then st.outbox
      else st.outbox ++ (st.connections.filter (fun p => p != message.sender)).map
        (fun p => (p, { message with ttl := some (t - 1) })) := by
  unfold processMessage
  have hcond : ¬ (st.processedMessages.contains message.messageId = true) := by
    rw [h]
    exact Bool.false_ne_true
  rw [if_neg hcond]
  dsimp only
  obtain ⟨kp, pt, ca, rc, hh⟩ := handleByType_shape env message
    { st with processedMessages := st.processedMessages ++ [message.messageId] }
  rw [hh]
  unfold propagateMessage
  rw [ht]
  dsimp only
  split
  · rfl
  · unfold broadcastMessage
    dsimp only
    simp only [contains_singleton]
    rfl

/-- Dispatch equation for TRANSACTION messages. -/
theorem handleByType_transaction (env : MeshEnv) (message : MeshMessage)
    (st : MeshState) (htype : message.type = "TRANSACTION") :
    handleByType env message st = handleTransactionMessage env.now message st := by
  unfold handleByType
  rw [htype]
  rfl

/-- A fresh TRANSACTION message whose transaction hash is new is applied
exactly once: the callback log grows by that transaction, whatever the
ttl. -/
theorem processMessage_received_fresh_tx (env : MeshEnv)
    (message : MeshMessage) (st : MeshState) (tx : OfflineTransaction)
    (h : st.processedMessages.contains message.messageId = false)
    (htype : message.type = "TRANSACTION")
    (hdata : message.data = some (MeshData.tx tx))
    (hhash : hasProcessedTransaction st tx.hash = false) :
    (processMessage env message st).received = st.received ++ [tx] := by
  unfold processMessage
  have hcond : ¬ (st.processedMessages.contains message.messageId = true) := by
    rw [h]
    exact Bool.false_ne_true
  rw [if_neg hcond]
  dsimp only
  rw [handleByType_transaction env message _ htype]
  unfold handleTransactionMessage
  rw [hdata]
  dsimp only
  have hhash2 : ¬ (hasProcessedTransaction
      { st with processedMessages := st.processedMessages ++ [message.messageId] }
      tx.hash = true) := by
    rw [show hasProcessedTransaction
      { st with processedMessages := st.processedMessages ++ [message.messageId] }
      tx.hash = false from hhash]
    exact Bool.false_ne_true
  rw [if_neg hhash2]
  obtain ⟨ob, hp⟩ := propagateMessage_shape message _
  rw [hp]
  rfl

/-- A message whose messageId was already processed is dropped without any
state change. -/
theorem processMessage_seen (env : MeshEnv) (message : MeshMessage)
    (st : MeshState) (h : message.messageId ∈ st.processedMessages) :
    processMessage env message st = st := by
  unfold processMessage
  rw [if_pos (List.elem_iff.mpr h)]

/-- Claim C6: message processing is idempotent in messageId; re-delivering
a message produces no additional side effects and leaves the state exactly
as it was after the first delivery, whatever the clock and random draws of
the second delivery. -/
theorem processMessage_idempotent (env1 env2 : MeshEnv)
    (message : MeshMessage) (st : MeshState) :
    processMessage env2 message (processMessage env1 message st) =
      processMessage env1 message st :=
  processMessage_seen env2 message _ (processMessage_mem_processed env1 message st)

/-- Claim C5 (amended): for a fresh message carrying a ttl, a ttl of at
most zero on arrival means the message is applied locally but not
re-flooded, while a positive ttl on arrival means the ttl is decremented
and the message is rebroadcast to every active connection except the
original sender, including the boundary case where the decremented ttl is
already zero. -/
theorem processMessage_ttl_policy (env : MeshEnv) (st : MeshState)
    (message : MeshMessage) (t : Int) (ht : message.ttl = some t)
    (hfresh : st.processedMessages.contains message.messageId = false) :
    (t ≤ 0 → (processMessage env message st).outbox = st.outbox) ∧
    (0 < t → (processMessage env message st).outbox =
      st.outbox ++ (st.connections.filter (fun p => p != message.sender)).map
        (fun p => (p, { message with ttl := some (t - 1) }))) ∧
    (processMessage env message st).processedMessages =
      st.processedMessages ++ [message.messageId] ∧
    (∀ tx, message.type = "TRANSACTION" →
      message.data = some (MeshData.tx tx) →
      hasProcessedTransaction st tx.hash = false →
      (processMessage env message st).received = st.received ++ [tx]) := by
  refine ⟨?_, ?_, ?_, ?_⟩
  · intro hle
    rw [processMessage_outbox_fresh env message st t ht hfresh, if_pos hle]
  · intro hlt
    rw [processMessage_outbox_fresh env message st t ht hfresh,
      if_neg (by omega)]
  · rw [processMessage_processedMessages,
      if_neg (by rw [hfresh]; exact Bool.false_ne_true)]
  · intro tx h1 h2 h3
    exact processMessage_received_fresh_tx env message st tx hfresh h1 h2 h3

/-- Witness for claim C5 at a concrete input: a fresh ping with ttl zero
is recorded as processed but produces no sends. -/
theorem processMessage_ttl_policy_wit :
    (processMessage envZero pingTtl0 meshStBase).outbox = meshStBase.outbox ∧
    (processMessage envZero pingTtl0 meshStBase).processedMessages =
      meshStBase.processedMessages ++ ["m0"] := by
  have h := processMessage_ttl_policy envZero meshStBase pingTtl0 0 rfl (by decide)
  exact ⟨h.1 (by decide), h.2.2.1⟩

/-- Counterexample to claim C5 as stated: a message arriving with ttl one
is rebroadcast even though its ttl after the decrement is zero, so the
rebroadcast is not restricted to a positive post-decrement ttl. -/
theorem processMessage_ttl_one_refloods_cex :
    (processMessage envZero pingTtl1 meshStBase).outbox =
      [("p2", { pingTtl1 with ttl := some 0 })] := by decide

/-- Claim C2 (amended): the pending query returns exactly the stored rows
whose status is PENDING and that are not yet synced on chain, in ascending
primary-key order; it applies no originator restriction, no ordering by
sender and nonce, and no exclusion of senders with missing lower
nonces. -/
theorem pending_query_characterization (db : Db) (tx : OfflineTransaction) :
    (tx ∈ getPendingTransactions db ↔
      tx ∈ db.transactions ∧ tx.status = TransactionStatus.PENDING ∧
        tx.syncedOnChain = false) ∧
    (getPendingTransactions db).Pairwise (fun a b => strLe a.id b.id = true) :=
  ⟨mem_getPendingTransactions db tx, pairwise_sortById _⟩

/-- Counterexample to claim C2 as stated: with nonces 1, 2 and 4 stored
for sender A and nonce 3 absent, the pending query still returns the
nonce-4 row. -/
theorem pending_includes_gap_nonce_cex :
    txNonce4 ∈ getPendingTransactions dbGap ∧
    txNonce4.nonce = 4 ∧
    dbGap.transactions.all (fun t => !(t.«from» == "A" && t.nonce == 3)) = true := by
  decide

/-- Claim C7 (amended): updateStatus overwrites the status of the row with
the given id unconditionally; there is no monotonicity check, so any
status, including COMPLETED or REJECTED, can be replaced by any other. -/
theorem updateStatus_unconditional (db : Db) (s : TransactionStatus)
    (tx : OfflineTransaction) (h : tx ∈ db.transactions) :
    { tx with status := s } ∈ (updateTransactionStatus db tx.id s).transactions := by
  unfold updateTransactionStatus
  refine List.mem_map.mpr ⟨tx, h, ?_⟩
  rw [if_pos (by simp)]

/-- Witness for claim C7 at a concrete input: the COMPLETED row moves back
to PENDING. -/
theorem updateStatus_unconditional_wit :
    { mkTx "t1" "A" "B" "1" 1 10 "s" "h1" TransactionStatus.COMPLETED [] with
        status := TransactionStatus.PENDING } ∈
      (updateTransactionStatus dbCompleted "t1" TransactionStatus.PENDING).transactions :=
  updateStatus_unconditional dbCompleted TransactionStatus.PENDING
    (mkTx "t1" "A" "B" "1" 1 10 "s" "h1" TransactionStatus.COMPLETED []) (by decide)

/-- Counterexample to claim C7 as stated: updateStatus is not a no-op on a
backward transition; it moves the COMPLETED row to PENDING. -/
theorem updateStatus_leaves_completed_cex :
    updateTransactionStatus dbCompleted "t1" TransactionStatus.PENDING ≠ dbCompleted ∧
    (updateTransactionStatus dbCompleted "t1" TransactionStatus.PENDING).transactions.map
      (·.status) = [TransactionStatus.PENDING] := by
  decide

/-- Claim C8 (code bug): at a store where the row with the greatest
primary key does not carry the greatest nonce, the code returns one plus
the nonce of the greatest-key row, 6, while the documented rule of one
plus the highest stored nonce gives 8. -/
theorem generateNonce_failing_input :
    generateNonce dbNonceSkew "A" = 6 ∧ nextNonceSpec dbNonceSkew "A" = 8 := by
  decide

/-- Claim C4 (amended): the crypto util builds exactly the colon-delimited
message, as on the spec example, but the offline transaction service signs
and hashes the JSON serialisation of the object with fields from, to,
amount, nonce and timestamp, not the colon-delimited string. -/
theorem signing_payload_characterization (sign shaHex : String → String)
    (db : Db) (keypair : Keypair) (id toAddr amount : String)
    (metadata : List (String × String)) (timestamp : Nat) :
    createTransactionMessage 10 "A" "B" 1 1000 = "10:A:B:1:1000" ∧
    (offlineBuildTransaction sign shaHex db keypair id toAddr amount metadata
        timestamp).signature =
      sign (offlineSigningPayload keypair.address toAddr amount
        (generateNonce db keypair.address) timestamp) ∧
    (offlineBuildTransaction sign shaHex db keypair id toAddr amount metadata
        timestamp).hash =
      shaHex (offlineSigningPayload keypair.address toAddr amount
        (generateNonce db keypair.address) timestamp) :=
  ⟨by decide, rfl, rfl⟩

/-- Counterexample to claim C4 as stated: at the spec example the string
the offline service signs and hashes is the JSON serialisation, which
differs from the claimed colon-delimited string. -/
theorem offline_signing_payload_cex :
    offlineSigningPayload "A" "B" "10" 1 1000 ≠ "10:A:B:1:1000" ∧
    (offlineBuildTransaction (fun s => s) (fun s => s) dbEmpty kpA "tid" "B"
        "10" [] 1000).signature = offlineSigningPayload "A" "B" "10" 1 1000 ∧
    (offlineBuildTransaction (fun s => s) (fun s => s) dbEmpty kpA "tid" "B"
        "10" [] 1000).hash = offlineSigningPayload "A" "B" "10" 1 1000 := by
  decide

/-- Any row whose primary key occurs in the batch carries status FAILED
after the failure fold. -/
theorem foldl_failed_status (transactions : List OfflineTransaction)
    (db : Db) (tx : OfflineTransaction)
    (hmem : tx ∈ (transactions.foldl
      (fun d t => updateTransactionStatus d t.id TransactionStatus.FAILED)
      db).transactions)
    (hid : transactions.any (fun t => tx.id == t.id) = true) :
    tx.status = TransactionStatus.FAILED := by
  rw [foldl_updateTransactionStatus] at hmem
  obtain ⟨r, _, heq⟩ := List.mem_map.mp hmem
  by_cases hc : transactions.any (fun t => r.id == t.id) = true
  · rw [if_pos hc] at heq
    rw [← heq]
  · rw [if_neg hc] at heq
    subst heq
    exact absurd hid hc

/-- Claim C1 (amended): when the batch submission fails as a whole, every
transaction of the batch ends with status FAILED, not PENDING, and is
therefore absent from the pending set of the next cycle. -/
theorem processBatch_total_failure_marks_failed (db : Db)
    (transactions : List OfflineTransaction) (e : String)
    (tx : OfflineTransaction)
    (hmem : tx ∈ (processBatch (fun _ => Except.error e) db
      transactions).transactions)
    (hid : transactions.any (fun t => tx.id == t.id) = true) :
    tx.status = TransactionStatus.FAILED ∧
    tx ∉ getPendingTransactions
      (processBatch (fun _ => Except.error e) db transactions) := by
  have h1 : processBatch (fun _ => Except.error e) db transactions =
      transactions.foldl
        (fun d t => updateTransactionStatus d t.id TransactionStatus.FAILED)
        (transactions.foldl
          (fun d t => updateTransactionStatus d t.id TransactionStatus.PROCESSING)
          db) := rfl
  rw [h1] at hmem
  have hstat := foldl_failed_status transactions _ tx hmem hid
  refine ⟨hstat, ?_⟩
  intro hpend
  have h2 := ((mem_getPendingTransactions _ tx).mp hpend).2.1
  rw [hstat] at h2
  exact absurd h2 (by decide)

/-- Witness for claim C1 at a concrete input: the first row of the failed
five-transaction batch is FAILED and missing from the pending set. -/
theorem processBatch_total_failure_marks_failed_wit :
    (mkTx "b1" "A" "B" "1" 1 100 "s1" "h1" TransactionStatus.FAILED []).status =
      TransactionStatus.FAILED ∧
    mkTx "b1" "A" "B" "1" 1 100 "s1" "h1" TransactionStatus.FAILED [] ∉
      getPendingTransactions (processBatch
        (fun _ => Except.error "transport failure") dbBatch5 dbBatch5.transactions) :=
  processBatch_total_failure_marks_failed dbBatch5 dbBatch5.transactions
    "transport failure" _ (by decide) (by decide)

/-- Counterexample to claim C1 as stated: after a total submission failure
all five batch transactions read FAILED, none PENDING, and the pending set
of the next cycle is empty instead of containing them. -/
theorem processBatch_total_failure_cex :
    ((processBatch (fun _ => Except.error "transport failure") dbBatch5
      dbBatch5.transactions).transactions.map (·.status)) =
      [TransactionStatus.FAILED, TransactionStatus.FAILED,
        TransactionStatus.FAILED, TransactionStatus.FAILED,
        TransactionStatus.FAILED] ∧
    getPendingTransactions (processBatch
      (fun _ => Except.error "transport failure") dbBatch5
      dbBatch5.transactions) = [] := by
  decide

/-- Claim C3 (amended): for a fresh transaction with a sender public key
attached, ingestion decides on the signature alone: a failed verification
raises the invalid-signature error and stores nothing, while a successful
verification stores the transaction whatever its declared hash, since the
hash is never recomputed or checked. -/
theorem receiveTransaction_signature_only
    (vc : List Nat → List Nat → List Nat → Bool) (db : Db)
    (tx : OfflineTransaction) (spk : String)
    (hdup : db.transactions.any (fun r => r.hash == tx.hash) = false)
    (hspk : jsTruthy (tx.metadata.lookup "senderPublicKey") = some spk) :
    (offlineVerifySignature vc
        (offlineSigningPayload tx.«from» tx.«to» tx.amount tx.nonce tx.timestamp)
        tx.signature spk = Except.ok false →
      receiveTransaction vc db tx = Except.error "Invalid transaction signature") ∧
    (offlineVerifySignature vc
        (offlineSigningPayload tx.«from» tx.«to» tx.amount tx.nonce tx.timestamp)
        tx.signature spk = Except.ok true →
      db.transactions.any (fun r => r.id == tx.id) = false →
      receiveTransaction vc db tx = Except.ok (true, ⟨db.transactions ++ [tx]⟩)) := by
  have hd : ¬ (db.transactions.any (fun r => r.hash == tx.hash) = true) := by
    rw [hdup]
    exact Bool.false_ne_true
  constructor
  · intro hv
    unfold receiveTransaction
    rw [if_neg hd, hspk]
    dsimp only
    rw [hv]
  · intro hv hidf
    unfold receiveTransaction
    rw [if_neg hd, hspk]
    dsimp only
    rw [hv]
    unfold dbAdd
    rw [if_neg (by rw [hidf]; exact Bool.false_ne_true)]

/-- Witness for claim C3 at a concrete input: a rejecting core yields the
invalid-signature error and an accepting core stores the transaction. -/
theorem receiveTransaction_signature_only_wit :
    receiveTransaction verifyCoreFalse dbEmpty txHashAA =
      Except.error "Invalid transaction signature" ∧
    receiveTransaction verifyCoreTrue dbEmpty txHashAA =
      Except.ok (true, ⟨[txHashAA]⟩) := by
  have h1 := receiveTransaction_signature_only verifyCoreFalse dbEmpty txHashAA
    spk32 (by decide) (by decide)
  have h2 := receiveTransaction_signature_only verifyCoreTrue dbEmpty txHashAA
    spk32 (by decide) (by decide)
  exact ⟨h1.1 (by decide), h2.2 (by decide) (by decide)⟩

/-- Counterexample to claim C3 as stated: two transactions identical in
every signed field but declaring different hashes are both stored, so no
recomputed-hash check can be taking place; at least one of the two
declared hashes must differ from the recomputed hash of the shared
payload, yet that transaction is persisted rather than rejected. -/
theorem receiveTransaction_ignores_hash_cex :
    txHashAA.hash ≠ txHashBB.hash ∧
    txHashAA.«from» = txHashBB.«from» ∧
    txHashAA.«to» = txHashBB.«to» ∧
    txHashAA.amount = txHashBB.amount ∧
    txHashAA.nonce = txHashBB.nonce ∧
    txHashAA.timestamp = txHashBB.timestamp ∧
    txHashAA.signature = txHashBB.signature ∧
    receiveTransaction verifyCoreTrue dbEmpty txHashAA =
      Except.ok (true, ⟨[txHashAA]⟩) ∧
    receiveTransaction verifyCoreTrue dbEmpty txHashBB =
      Except.ok (true, ⟨[txHashBB]⟩) := by
  decide

/-- Claim C9 (amended): the crypto-util verifier is a total boolean
function; it answers true only when both base58 decodings succeed, the
decoded signature and key have the sizes tweetnacl demands and the
ed25519 core accepts, so on every malformed input it returns false rather
than raising.  The verifier local to the offline transaction service, in
contrast, propagates decoding and size errors. -/
theorem cryptoVerify_true_implies_wellformed
    (vc : List Nat → List Nat → List Nat → Bool)
    (message signature publicKey : String)
    (h : cryptoVerifySignature vc message signature publicKey = true) :
    ∃ publicKeyBytes signatureBytes,
      decodeBase58 publicKey = Except.ok publicKeyBytes ∧
      decodeBase58 signature = Except.ok signatureBytes ∧
      signatureBytes.length = 64 ∧ publicKeyBytes.length = 32 ∧
      vc (strBytes message) signatureBytes publicKeyBytes = true := by
  unfold cryptoVerifySignature cryptoVerifyBody at h
  cases hpk : decodeBase58 publicKey with
  | error e =>
    rw [hpk] at h
    exact absurd h Bool.false_ne_true
  | ok pkB =>
    rw [hpk] at h
    cases hsg : decodeBase58 signature with
    | error e =>
      rw [hsg] at h
      exact absurd h Bool.false_ne_true
    | ok sgB =>
      rw [hsg] at h
      unfold naclDetachedVerify at h
      dsimp only at h
      by_cases h64 : sgB.length = 64
      · by_cases h32 : pkB.length = 32
        · rw [if_neg (not_not_intro h64), if_neg (not_not_intro h32)] at h
          dsimp only at h
          exact ⟨pkB, sgB, rfl, rfl, h64, h32, h⟩
        · rw [if_neg (not_not_intro h64), if_pos h32] at h
          exact absurd h Bool.false_ne_true
      · rw [if_pos h64] at h
        exact absurd h Bool.false_ne_true

/-- Witness for claim C9 at a concrete input: well-formed base58 material
of the right sizes makes the verifier answer true with an accepting
core. -/
theorem cryptoVerify_true_implies_wellformed_wit :
    ∃ publicKeyBytes signatureBytes,
      decodeBase58 spk32 = Except.ok publicKeyBytes ∧
      decodeBase58 sig64 = Except.ok signatureBytes ∧
      signatureBytes.length = 64 ∧ publicKeyBytes.length = 32 ∧
      verifyCoreTrue (strBytes "m") signatureBytes publicKeyBytes = true :=
  cryptoVerify_true_implies_wellformed verifyCoreTrue "m" sig64 spk32 (by decide)

/-- Counterexample to claim C9 as stated: the verifier local to the
offline transaction service raises on malformed input instead of
returning false, with a size error on empty material and a decoding error
on a character outside the base58 alphabet. -/
theorem offlineVerify_throws_cex :
    offlineVerifySignature verifyCoreFalse "m" "" "" =
      Except.error "bad signature size" ∧
    offlineVerifySignature verifyCoreFalse "m" "0" "" =
      Except.error "Non-base58 character" := by
  decide

/-- Claim C10: a transaction whose metadata carries no senderPublicKey
entry is rejected by ingestion with the sender-public-key error and is not
stored, both when received from the mesh and when rebuilt from a QR
payload whose optional metadata is absent. -/
theorem missing_senderPublicKey_rejected
    (vc : List Nat → List Nat → List Nat → Bool) (db : Db)
    (tx : OfflineTransaction) (p : QRPayload)
    (h1 : db.transactions.any (fun r => r.hash == tx.hash) = false)
    (h2 : tx.metadata.lookup "senderPublicKey" = none)
    (h3 : p.type = "GLOBE_PAY_TX")
    (h4 : (p.metadata.getD []).lookup "senderPublicKey" = none)
    (h5 : db.transactions.any (fun r => r.hash == p.hash) = false) :
    receiveTransaction vc db tx = Except.error "Sender public key not provided" ∧
    processQRTransaction vc db p = Except.error "Sender public key not provided" := by
  have key : ∀ (tx2 : OfflineTransaction),
      db.transactions.any (fun r => r.hash == tx2.hash) = false →
      tx2.metadata.lookup "senderPublicKey" = none →
      receiveTransaction vc db tx2 =
        Except.error "Sender public key not provided" := by
    intro tx2 ha hb
    unfold receiveTransaction
    rw [if_neg (by rw [ha]; exact Bool.false_ne_true), hb]
    rfl
  refine ⟨key tx h1 h2, ?_⟩
  unfold processQRTransaction
  rw [if_neg (by rw [h3]; decide)]
  dsimp only
  rw [key _ h5 h4]

/-- Witness for claim C10 at a concrete input: both the mesh transaction
without a senderPublicKey entry and the QR payload without metadata are
rejected with the sender-public-key error. -/
theorem missing_senderPublicKey_rejected_wit :
    receiveTransaction verifyCoreTrue dbEmpty txNoSpk =
      Except.error "Sender public key not provided" ∧
    processQRTransaction verifyCoreTrue dbEmpty qrNoMeta =
      Except.error "Sender public key not provided" :=
  missing_senderPublicKey_rejected verifyCoreTrue dbEmpty txNoSpk qrNoMeta
    (by decide) (by decide) (by decide) (by decide) (by decide)
